import Mathlib

/-!
Verification of the MediAgent repository: a shallow embedding of the
agent orchestration and citation-grounding subsystem (src/app.py,
src/src/agent.py, src/src/functions.py), together with theorems about
the claims of the specification.

Strings that the Python code manipulates with `str.split` are modelled
as `List Char`; external HTTP services and the language model are
modelled as function parameters; Python exceptions are modelled with
`Except`.
-/

namespace MediAgent

/-! ## Sequence searching: the semantics of Python `str.split(sep, 1)` -/

/-- Does `p` occur at the head of `l` (Python `str.startswith`)? -/
def leadsWith : List Char → List Char → Bool
  | [], _ => true
  | _ :: _, [] => false
  | c :: cs, d :: ds => c = d && leadsWith cs ds

/-- Does `sep` occur as a contiguous subsequence of `l` (Python `sep in l`)? -/
def containsSeq (sep : List Char) : List Char → Bool
  | [] => sep.isEmpty
  | c :: rest => leadsWith sep (c :: rest) || containsSeq sep rest

/-- Python `s.split(sep, 1)` when the split succeeds: the text before the
first occurrence of `sep` and the text after it.  `none` models the
one-element result (which app.py unpacks into two variables, raising
`ValueError`). -/
def splitOnce (sep : List Char) : List Char → Option (List Char × List Char)
  | [] => none
  | c :: rest =>
    if leadsWith sep (c :: rest) then some ([], (c :: rest).drop sep.length)
    else
      match splitOnce sep rest with
      | some (a, b) => some (c :: a, b)
      | none => none

theorem leadsWith_iff (p l : List Char) : leadsWith p l = true ↔ ∃ t, p ++ t = l := by
  induction p generalizing l with
  | nil => simp [leadsWith]
  | cons c cs ih =>
    cases l with
    | nil =>
      constructor
      · intro h
        simp [leadsWith] at h
      · rintro ⟨t, ht⟩
        simp at ht
    | cons d ds =>
      simp only [leadsWith, Bool.and_eq_true, decide_eq_true_eq, ih]
      constructor
      · rintro ⟨rfl, t, rfl⟩
        exact ⟨t, rfl⟩
      · rintro ⟨t, ht⟩
        rw [List.cons_append] at ht
        injection ht with h1 h2
        exact ⟨h1, t, h2⟩

theorem containsSeq_iff (sep l : List Char) :
    containsSeq sep l = true ↔ ∃ x y, l = x ++ sep ++ y := by
  induction l with
  | nil =>
    constructor
    · intro h
      have hsep : sep = [] := by
        cases sep with
        | nil => rfl
        | cons s ss => simp [containsSeq, List.isEmpty] at h
      exact ⟨[], [], by simp [hsep]⟩
    · rintro ⟨x, y, hxy⟩
      have h1 := List.append_eq_nil.mp hxy.symm
      have h2 := List.append_eq_nil.mp h1.1
      simp [h2.2, containsSeq, List.isEmpty]
  | cons c rest ih =>
    simp only [containsSeq, Bool.or_eq_true, leadsWith_iff, ih]
    constructor
    · rintro (⟨t, ht⟩ | ⟨x, y, rfl⟩)
      · exact ⟨[], t, by rw [List.nil_append, ht]⟩
      · exact ⟨c :: x, y, rfl⟩
    · rintro ⟨x, y, hxy⟩
      cases x with
      | nil =>
        left
        exact ⟨y, by simpa using hxy.symm⟩
      | cons x0 xs =>
        right
        simp only [List.cons_append] at hxy
        injection hxy with h1 h2
        exact ⟨xs, y, h2⟩

theorem containsSeq_cons (sep : List Char) (c : Char) (l : List Char)
    (h : containsSeq sep l = true) : containsSeq sep (c :: l) = true := by
  simp [containsSeq, h]

theorem splitOnce_eq_none_iff (sep l : List Char) (hsep : sep ≠ []) :
    splitOnce sep l = none ↔ containsSeq sep l = false := by
  induction l with
  | nil =>
    cases sep with
    | nil => exact absurd rfl hsep
    | cons s ss => simp [splitOnce, containsSeq, List.isEmpty]
  | cons c rest ih =>
    simp only [splitOnce, containsSeq]
    by_cases hl : leadsWith sep (c :: rest) = true
    · simp [hl]
    · simp only [Bool.not_eq_true] at hl
      rw [if_neg (by simp [hl])]
      simp only [hl, Bool.false_or]
      cases hs : splitOnce sep rest with
      | none => simp [ih.mp hs]
      | some ab =>
        obtain ⟨a, b⟩ := ab
        constructor
        · intro h
          cases h
        · intro h
          have := ih.mpr h
          rw [hs] at this
          cases this

theorem splitOnce_some_eq (sep l a b : List Char)
    (h : splitOnce sep l = some (a, b)) : l = a ++ sep ++ b := by
  induction l generalizing a b with
  | nil => cases h
  | cons c rest ih =>
    by_cases hl : leadsWith sep (c :: rest) = true
    · simp only [splitOnce, hl, if_true, Option.some.injEq, Prod.mk.injEq] at h
      obtain ⟨rfl, rfl⟩ := h
      obtain ⟨t, ht⟩ := (leadsWith_iff sep (c :: rest)).mp hl
      rw [← ht, List.drop_left]
      simp
    · simp only [splitOnce, if_neg hl] at h
      cases hs : splitOnce sep rest with
      | none =>
        rw [hs] at h
        cases h
      | some ab =>
        obtain ⟨x, y⟩ := ab
        rw [hs] at h
        simp only [Option.some.injEq, Prod.mk.injEq] at h
        obtain ⟨rfl, rfl⟩ := h
        have := ih x y hs
        simp [this]

theorem splitOnce_append (sep a b : List Char) (hsep : sep ≠ [])
    (hc : containsSeq sep (a ++ sep.dropLast) = false) :
    splitOnce sep (a ++ sep ++ b) = some (a, b) := by
  induction a with
  | nil =>
    simp only [List.nil_append]
    cases sep with
    | nil => exact absurd rfl hsep
    | cons s ss =>
      have hl : leadsWith (s :: ss) (s :: (ss ++ b)) = true := by
        rw [← List.cons_append]
        exact (leadsWith_iff _ _).mpr ⟨b, rfl⟩
      show splitOnce (s :: ss) (s :: (ss ++ b)) = some ([], b)
      simp only [splitOnce, hl, if_true]
      rw [← List.cons_append, List.drop_left]
  | cons c a' ih =>
    have hc' : containsSeq sep (a' ++ sep.dropLast) = false := by
      by_contra hcc
      rw [Bool.not_eq_false] at hcc
      have h2 := containsSeq_cons sep c _ hcc
      rw [← List.cons_append] at h2
      rw [hc] at h2
      cases h2
    have hlen : sep.length ≤ ((c :: a') ++ sep.dropLast).length := by
      rw [List.length_append, List.length_dropLast, List.length_cons]
      have : 1 ≤ sep.length := by
        cases sep with
        | nil => exact absurd rfl hsep
        | cons s ss => simp
      omega
    have hl : ¬ leadsWith sep ((c :: a') ++ sep ++ b) = true := by
      intro hlead
      obtain ⟨t, ht⟩ := (leadsWith_iff _ _).mp hlead
      have h1 : ((c :: a') ++ sep ++ b).take sep.length = sep := by
        rw [← ht]
        exact List.take_left sep t
      have heq : (c :: a') ++ sep ++ b =
          ((c :: a') ++ sep.dropLast) ++ (sep.getLast hsep :: b) := by
        conv_lhs => rw [← List.dropLast_append_getLast hsep]
        simp [List.append_assoc]
      rw [heq, List.take_append_eq_append_take, Nat.sub_eq_zero_of_le hlen,
        List.take_zero, List.append_nil] at h1
      have h2 : containsSeq sep ((c :: a') ++ sep.dropLast) = true := by
        refine (containsSeq_iff _ _).mpr ⟨[], ((c :: a') ++ sep.dropLast).drop sep.length, ?_⟩
        rw [List.nil_append]
        conv_lhs => rw [← List.take_append_drop sep.length ((c :: a') ++ sep.dropLast)]
        rw [h1]
      rw [hc] at h2
      cases h2
    show splitOnce sep (c :: (a' ++ sep ++ b)) = some (c :: a', b)
    simp only [splitOnce]
    rw [ih hc',
      if_neg (show ¬ leadsWith sep (c :: (a' ++ sep ++ b)) = true by
        simpa [List.cons_append] using hl)]

/-! ## Decimal rendering of a citation index -/

/-- The decimal digit character of `k % 10`. -/
def digitChar10 : Nat → Char
  | 0 => '0'
  | 1 => '1'
  | 2 => '2'
  | 3 => '3'
  | 4 => '4'
  | 5 => '5'
  | 6 => '6'
  | 7 => '7'
  | 8 => '8'
  | 9 => '9'
  | _ + 10 => '9'

def digitOf (k : Nat) : Char := digitChar10 (k % 10)

/-- Fuel-driven rendering of the decimal digits of a natural number,
most significant digit first. -/
def natCharsAux : Nat → Nat → List Char → List Char
  | 0, _, acc => acc
  | fuel + 1, n, acc =>
    if n < 10 then digitOf n :: acc
    else natCharsAux fuel (n / 10) (digitOf n :: acc)

/-- The decimal digits of `n`, as Python `str(n)` renders them. -/
def natChars (n : Nat) : List Char := natCharsAux (n + 1) n []

theorem digitChar10_mem (m : Nat) :
    digitChar10 m ∈ ['0', '1', '2', '3', '4', '5', '6', '7', '8', '9'] := by
  rcases m with _|_|_|_|_|_|_|_|_|_|m <;> simp [digitChar10]

theorem natCharsAux_mem (fuel : Nat) : ∀ n acc c, c ∈ natCharsAux fuel n acc →
    c ∈ acc ∨ ∃ k, c = digitOf k := by
  induction fuel with
  | zero =>
    intro n acc c h
    exact Or.inl h
  | succ f ih =>
    intro n acc c h
    simp only [natCharsAux] at h
    by_cases hn : n < 10
    · rw [if_pos hn] at h
      rcases List.mem_cons.mp h with rfl | h2
      · exact Or.inr ⟨n, rfl⟩
      · exact Or.inl h2
    · rw [if_neg hn] at h
      rcases ih (n / 10) _ c h with h2 | h2
      · rcases List.mem_cons.mp h2 with rfl | h3
        · exact Or.inr ⟨n, rfl⟩
        · exact Or.inl h3
      · exact Or.inr h2

theorem natChars_digit (n : Nat) (c : Char) (h : c ∈ natChars n) :
    ∃ k, c = digitOf k := by
  rcases natCharsAux_mem (n + 1) n [] c h with h2 | h2
  · cases h2
  · exact h2

theorem digitOf_ne (k : Nat) :
    digitOf k ≠ ' ' ∧ digitOf k ≠ ']' ∧ digitOf k ≠ '[' ∧ digitOf k ≠ '-' := by
  have h := digitChar10_mem (k % 10)
  unfold digitOf
  simp only [List.mem_cons, List.not_mem_nil, or_false] at h
  rcases h with h|h|h|h|h|h|h|h|h|h <;> rw [h] <;>
    exact ⟨by decide, by decide, by decide, by decide⟩

theorem containsSeq_eq_false_of_missing (sep l : List Char) (c : Char)
    (hc : c ∈ sep) (hl : c ∉ l) : containsSeq sep l = false := by
  by_contra h
  rw [Bool.not_eq_false] at h
  obtain ⟨x, y, rfl⟩ := (containsSeq_iff _ _).mp h
  exact hl (by simp [hc])

/-! ## The citation wire format and src/app.py's format_citations -/

/-- The first delimiter of the citation wire format, the string "] ". -/
def sepBracket : List Char := [']', ' ']

/-- The second delimiter of the citation wire format, the string " - ". -/
def sepDash : List Char := [' ', '-', ' ']

/-- Does `t` end with the two characters " -" (the proper prefix of the
" - " delimiter that can collide with a following delimiter)? -/
def endsWithDash (t : List Char) : Bool := leadsWith ['-', ' '] t.reverse

/-- The citation wire format fixed by the system prompt in
src/src/agent.py: the string "[n] Title - URL". -/
def formatCitation (n : Nat) (t u : List Char) : List Char :=
  '[' :: natChars n ++ sepBracket ++ t ++ sepDash ++ u

/-- The parsing half of format_citations in src/app.py:
num, rest = citation.split("] ", 1) followed by
title, url = rest.split(" - ", 1).  `none` models the ValueError
raised when either delimiter is absent. -/
def parseCitation (s : List Char) : Option (List Char × List Char × List Char) :=
  match splitOnce sepBracket s with
  | none => none
  | some (num, rest) =>
    match splitOnce sepDash rest with
    | none => none
    | some (t, u) => some (num, t, u)

theorem containsSeq_append_dash (t : List Char)
    (h1 : containsSeq sepDash t = false) (h2 : endsWithDash t = false) :
    containsSeq sepDash (t ++ [' ', '-']) = false := by
  by_contra h
  rw [Bool.not_eq_false] at h
  obtain ⟨x, y, hxy⟩ := (containsSeq_iff _ _).mp h
  rcases y with _ | ⟨d, y⟩
  · rw [List.append_nil] at hxy
    have hlast := congrArg List.getLast? hxy
    rw [List.getLast?_append_of_ne_nil t (by decide),
      List.getLast?_append_of_ne_nil x (show sepDash ≠ [] by decide)] at hlast
    exact absurd hlast (by decide)
  · rcases y with _ | ⟨e, y⟩
    · have hd := congrArg List.dropLast hxy
      have hL : (t ++ [' ', '-']).dropLast = t ++ [' '] := by
        have : t ++ [' ', '-'] = (t ++ [' ']) ++ ['-'] := by simp
        rw [this, List.dropLast_concat]
      have hR : (x ++ sepDash ++ [d]).dropLast = x ++ sepDash := List.dropLast_concat
      rw [hL, hR] at hd
      have hsepd : x ++ sepDash = (x ++ [' ', '-']) ++ [' '] := by
        simp [sepDash]
      rw [hsepd] at hd
      have ht : t = x ++ [' ', '-'] := List.append_cancel_right hd
      have hrev : t.reverse = '-' :: ' ' :: x.reverse := by
        rw [ht]
        simp
      have : endsWithDash t = true := by
        rw [endsWithDash, hrev]
        exact (leadsWith_iff _ _).mpr ⟨x.reverse, rfl⟩
      rw [h2] at this
      cases this
    · have hlen := congrArg List.length hxy
      simp only [List.length_append, List.length_cons, sepDash] at hlen
      have hxlen : (x ++ sepDash).length ≤ t.length := by
        rw [List.length_append]
        simp only [sepDash, List.length_cons, List.length_nil]
        omega
      have h1' : t = (x ++ sepDash) ++ (d :: e :: y).take (t.length - (x ++ sepDash).length) := by
        have htake : t = (t ++ [' ', '-']).take t.length := (List.take_left t [' ', '-']).symm
        rw [hxy, List.take_append_eq_append_take,
          List.take_of_length_le hxlen] at htake
        exact htake
      have : containsSeq sepDash t = true := by
        refine (containsSeq_iff _ _).mpr
          ⟨x, (d :: e :: y).take (t.length - (x ++ sepDash).length), ?_⟩
        rw [List.append_assoc] at h1'
        rw [← List.append_assoc] at h1'
        exact h1'
      rw [h1] at this
      cases this

/-- Claim C4 (amended): the citation round trip recovers index label,
title and url exactly, for titles and urls that contain neither
delimiter, provided additionally that the title does not end with the
two characters " -" (otherwise the title's tail and the following
" - " delimiter combine into an earlier occurrence of the delimiter
and the parse splits there). -/
theorem claim_c4_roundtrip (n : Nat) (t u : List Char)
    (ht1 : containsSeq sepBracket t = false)
    (ht2 : containsSeq sepDash t = false)
    (hu1 : containsSeq sepBracket u = false)
    (hu2 : containsSeq sepDash u = false)
    (hend : endsWithDash t = false) :
    parseCitation (formatCitation n t u) = some ('[' :: natChars n, t, u) := by
  have hfmt : formatCitation n t u =
      ('[' :: natChars n) ++ sepBracket ++ (t ++ sepDash ++ u) := by
    simp [formatCitation, List.append_assoc]
  have hs1 : splitOnce sepBracket (formatCitation n t u) =
      some ('[' :: natChars n, t ++ sepDash ++ u) := by
    rw [hfmt]
    apply splitOnce_append _ _ _ (by decide)
    apply containsSeq_eq_false_of_missing _ _ ' ' (by decide)
    intro hmem
    rcases List.mem_append.mp hmem with hmem1 | hmem2
    · rcases List.mem_cons.mp hmem1 with heq | hmem3
      · exact absurd heq (by decide)
      · obtain ⟨k, hk⟩ := natChars_digit n _ hmem3
        exact (digitOf_ne k).1 hk.symm
    · exact absurd hmem2 (by decide)
  have hs2 : splitOnce sepDash (t ++ sepDash ++ u) = some (t, u) := by
    apply splitOnce_append _ _ _ (by decide)
    have hdl : sepDash.dropLast = [' ', '-'] := by decide
    rw [hdl]
    exact containsSeq_append_dash t ht2 hend
  simp only [parseCitation, hs1, hs2]

/-- Claim C4 counterexample: the title "x -" contains neither the
delimiter "] " nor the delimiter " - ", and the url "u" contains
neither, yet parsing "[1] x - - u" does not recover them: the parse
splits at the earlier occurrence of " - " spanning the title's tail. -/
theorem claim_c4_counterexample :
    (containsSeq sepBracket ['x', ' ', '-'] = false ∧
     containsSeq sepDash ['x', ' ', '-'] = false ∧
     containsSeq sepBracket ['u'] = false ∧
     containsSeq sepDash ['u'] = false) ∧
    parseCitation (formatCitation 1 ['x', ' ', '-'] ['u']) ≠
      some ('[' :: natChars 1, ['x', ' ', '-'], ['u']) := by decide

/-- Witness for claim C4's amended round trip at a concrete citation. -/
theorem claim_c4_witness :
    parseCitation (formatCitation 7 ['T'] ['u']) = some ('[' :: natChars 7, ['T'], ['u']) :=
  claim_c4_roundtrip 7 ['T'] ['u'] (by decide) (by decide) (by decide) (by decide) (by decide)

/-! ## The agent's data model (src/src/agent.py) -/

/-- The structured answer class SearchResponse in src/src/agent.py:
an answer string and a list of citation strings. -/
structure SearchResponse where
  answer : String
  citations : List String
  deriving DecidableEq

/-- The possible result-type configurations of the agent.
src/src/agent.py annotates the agent as Agent[None, SearchResponse]
but passes result_type = str (the SearchResponse line is commented
out). -/
inductive AgentResultType
  | plainString
  | structuredResponse
  deriving DecidableEq

/-- The result type search_agent is actually constructed with in
src/src/agent.py line 35: result_type = str. -/
def search_agent_result_type : AgentResultType := AgentResultType.plainString

/-- The data carried by a completed agent run: a plain string or a
structured SearchResponse, according to the configured result type. -/
inductive RunData
  | ofString (s : String)
  | ofResponse (r : SearchResponse)
  deriving DecidableEq

/-- The run data a completed run carries under result-type
configuration `t`. -/
def runDataFor (t : AgentResultType) (s : String) (r : SearchResponse) : RunData :=
  match t with
  | AgentResultType.plainString => RunData.ofString s
  | AgentResultType.structuredResponse => RunData.ofResponse r

/-- The result validator written in src/src/agent.py lines 80-85
(present only as commented-out code): raise ModelRetry with the given
reason when the citations list is empty, otherwise return the result. -/
def validate_result (r : SearchResponse) : Except String SearchResponse :=
  if r.citations = [] then Except.error ("Response must include at least one citation")
  else Except.ok r

/-- The validators actually registered on search_agent: none, because
the result_validator decorator in src/src/agent.py is commented out. -/
def search_agent_result_validators : List (SearchResponse → Except String SearchResponse) := []

/-- The validation the configured agent applies to a candidate result:
the composition of every registered validator. -/
def agent_validate (r : SearchResponse) : Except String SearchResponse :=
  search_agent_result_validators.foldl (fun acc v => acc.bind v) (Except.ok r)

/-! ## The chat-turn handler (src/app.py) -/

/-- The Python exceptions the chat-input block of src/app.py can
catch: AttributeError from result.data.answer on a plain string, and
ValueError from unpacking a failed split in format_citations. -/
inductive PyError
  | attributeError
  | valueError
  deriving DecidableEq

def pyErrorText : PyError → String
  | PyError.attributeError => "AttributeError"
  | PyError.valueError => "ValueError"

/-- The rendering of one parsed citation in src/app.py line 42:
num + "] [" + title + "](" + url + ")". -/
def renderCitation (num t u : List Char) : List Char :=
  num ++ (']' :: ' ' :: '[' :: t) ++ (']' :: '(' :: u) ++ [')']

/-- format_citations in src/app.py lines 35-43: parse every citation
string, render each as a markdown link; a citation missing a delimiter
raises ValueError, aborting the whole call. -/
def format_citations : List (List Char) → Except PyError (List (List Char))
  | [] => Except.ok []
  | c :: rest =>
    match parseCitation c with
    | none => Except.error PyError.valueError
    | some (num, t, u) =>
      match format_citations rest with
      | Except.error e => Except.error e
      | Except.ok fs => Except.ok (renderCitation num t u :: fs)

/-- Python "newline".join of the rendered citations. -/
def joinLines : List (List Char) → List Char
  | [] => []
  | [l] => l
  | l :: ls => l ++ '\n' :: joinLines ls

/-- The assistant's response content built in src/app.py lines 72-75. -/
structure ResponseContent where
  answer : String
  citations : List Char
  deriving DecidableEq

/-- Building the response content in src/app.py lines 72-75: read
result.data.answer and result.data.citations (an AttributeError when
the run data is a plain string), then format the citations. -/
def extract_response_content : RunData → Except PyError ResponseContent
  | RunData.ofString _ => Except.error PyError.attributeError
  | RunData.ofResponse r =>
    match format_citations (r.citations.map String.toList) with
    | Except.error e => Except.error e
    | Except.ok fs => Except.ok ⟨r.answer, joinLines fs⟩

/-- One chat transcript entry in st.session_state.messages. -/
inductive ChatMessage
  | user (text : String)
  | assistant (answer : String) (citations : List Char)
  deriving DecidableEq

/-- st.session_state in src/app.py: the transcript and the
agent-facing message history (None until a turn succeeds).  `μ` is the
type of agent model messages. -/
structure SessionState (μ : Type) where
  messages : List ChatMessage
  message_history : Option (List μ)
  deriving DecidableEq

/-- The value of search_agent.run: the run data and the full message
list result.all_messages(). -/
structure RunOutcome (μ : Type) where
  data : RunData
  all_messages : List μ
  deriving DecidableEq

def errorPrefixText : String := "An error occurred: "

/-- The chat-input block of src/app.py lines 57-92: append the user
message, run the agent; on success build the response content, append
it and replace message_history with the run's full message list; on
any exception append an error message and leave message_history
untouched. -/
def handleTurn {μ : Type} (st : SessionState μ) (prompt : String)
    (run : Except String (RunOutcome μ)) : SessionState μ :=
  let st1 : SessionState μ := ⟨st.messages ++ [ChatMessage.user prompt], st.message_history⟩
  match run with
  | Except.error e =>
    ⟨st1.messages ++ [ChatMessage.assistant (errorPrefixText ++ e) []], st1.message_history⟩
  | Except.ok rr =>
    match extract_response_content rr.data with
    | Except.error e =>
      ⟨st1.messages ++ [ChatMessage.assistant (errorPrefixText ++ pyErrorText e) []],
        st1.message_history⟩
    | Except.ok c =>
      ⟨st1.messages ++ [ChatMessage.assistant c.answer c.citations], some rr.all_messages⟩

/-- Claim C1 (code-bug evidence): src/src/agent.py configures the
agent with result_type = str, so the data of every completed run is a
plain string; src/app.py's access to result.data.answer then raises
AttributeError and every turn lands in the exception handler — the
caller never receives the structured answer/citations result the
specification promises. -/
theorem claim_c1_result_type_bug (μ : Type) (st : SessionState μ) (prompt : String)
    (s : String) (r : SearchResponse) (msgs : List μ) :
    search_agent_result_type = AgentResultType.plainString ∧
    runDataFor search_agent_result_type s r = RunData.ofString s ∧
    extract_response_content (RunData.ofString s) = Except.error PyError.attributeError ∧
    handleTurn st prompt (Except.ok ⟨RunData.ofString s, msgs⟩) =
      ⟨st.messages ++ [ChatMessage.user prompt,
        ChatMessage.assistant (errorPrefixText ++ pyErrorText PyError.attributeError) []],
       st.message_history⟩ := by
  refine ⟨rfl, rfl, rfl, ?_⟩
  simp [handleTurn, extract_response_content]

/-- Claim C3 counterexample: with the configuration in the source the
candidate with empty citations is accepted unvalidated (no validator
is registered), and even the commented-out validator's reason string
differs from the claimed one by the trailing period. -/
theorem claim_c3_counterexample :
    agent_validate ⟨"a", []⟩ = Except.ok ⟨"a", []⟩ ∧
    validate_result ⟨"a", []⟩ =
      Except.error ("Response must include at least one citation") ∧
    ("Response must include at least one citation" : String) ≠
      "Response must include at least one citation." := by
  refine ⟨rfl, rfl, by decide⟩

/-- Claim C3 (amended): the candidate-answer validator exists in
src/src/agent.py only as commented-out code and is not registered, so
the configured agent accepts every candidate unvalidated; the
commented validator itself rejects a candidate exactly when its
citations list is empty, with reason "Response must include at least
one citation" (no trailing period), and accepts any candidate with at
least one citation. -/
theorem claim_c3_validator (r : SearchResponse) :
    search_agent_result_validators = [] ∧
    agent_validate r = Except.ok r ∧
    (r.citations = [] →
      validate_result r = Except.error ("Response must include at least one citation")) ∧
    (r.citations ≠ [] → validate_result r = Except.ok r) := by
  refine ⟨rfl, rfl, ?_, ?_⟩
  · intro h
    simp [validate_result, h]
  · intro h
    simp [validate_result, h]

/-- Witness for claim C3 at a concrete candidate with one citation. -/
theorem claim_c3_witness :
    validate_result ⟨"a", ["[1] T - u"]⟩ = Except.ok ⟨"a", ["[1] T - u"]⟩ :=
  (claim_c3_validator ⟨"a", ["[1] T - u"]⟩).2.2.2 (by decide)

/-- Claim C10: a turn that fails at any stage — the agent run raising,
or the response-content construction raising — leaves
message_history exactly as it was; the history is replaced, with the
run's full message list, only when the whole turn succeeds. -/
theorem claim_c10_history (μ : Type) (st : SessionState μ) (prompt : String)
    (run : Except String (RunOutcome μ)) :
    ((∃ e, run = Except.error e) ∨
      (∃ rr e, run = Except.ok rr ∧ extract_response_content rr.data = Except.error e) →
      (handleTurn st prompt run).message_history = st.message_history) ∧
    (∀ rr c, run = Except.ok rr → extract_response_content rr.data = Except.ok c →
      (handleTurn st prompt run).message_history = some rr.all_messages) := by
  constructor
  · intro hfail
    rcases hfail with ⟨e, rfl⟩ | ⟨rr, e, rfl, hext⟩
    · rfl
    · simp [handleTurn, hext]
  · intro rr c hrun hext
    subst hrun
    simp [handleTurn, hext]

/-- Witness for claim C10: a concrete failed run leaves the history
untouched. -/
theorem claim_c10_witness :
    (handleTurn (⟨[], some [0]⟩ : SessionState Nat) ("q")
      (Except.error ("boom"))).message_history = some [0] :=
  (claim_c10_history Nat ⟨[], some [0]⟩ ("q") (Except.error ("boom"))).1
    (Or.inl ⟨"boom", rfl⟩)

/-- Claim C5 counterexample: the citation "No delimiter here" makes
format_citations raise (MalformedCitation holds), but the chat-input
block does not retry the turn: the exception handler surfaces the
crash to the transcript as an error message and the turn ends there. -/
theorem claim_c5_counterexample :
    parseCitation (String.toList ("No delimiter here")) = none ∧
    handleTurn (⟨[], none⟩ : SessionState Nat) ("q")
        (Except.ok ⟨RunData.ofResponse ⟨"a", ["No delimiter here"]⟩, []⟩) =
      ⟨[ChatMessage.user ("q"),
        ChatMessage.assistant (errorPrefixText ++ pyErrorText PyError.valueError) []],
       none⟩ := by
  constructor
  · decide
  · decide

/-- Claim C5 (amended): a citation string missing either delimiter
parses to none, so format_citations raises ValueError (the
MalformedCitation condition); the chat-input block of src/app.py does
not treat this as a validation rejection and does not retry — its
exception handler appends an error message to the transcript and
leaves the agent history unchanged. -/
theorem claim_c5_malformed (s : List Char) (μ : Type) (st : SessionState μ)
    (prompt : String) (rr : RunOutcome μ) (e : PyError)
    (hs : containsSeq sepBracket s = false ∨ containsSeq sepDash s = false)
    (hext : extract_response_content rr.data = Except.error e) :
    parseCitation s = none ∧
    handleTurn st prompt (Except.ok rr) =
      ⟨st.messages ++ [ChatMessage.user prompt,
        ChatMessage.assistant (errorPrefixText ++ pyErrorText e) []],
       st.message_history⟩ := by
  constructor
  · rcases hs with h | h
    · simp only [parseCitation]
      rw [(splitOnce_eq_none_iff sepBracket s (by decide)).mpr h]
    · cases hb : splitOnce sepBracket s with
      | none => simp [parseCitation, hb]
      | some ab =>
        obtain ⟨num, rest⟩ := ab
        have hdecomp := splitOnce_some_eq _ _ _ _ hb
        have hrest : containsSeq sepDash rest = false := by
          by_contra hc
          rw [Bool.not_eq_false] at hc
          obtain ⟨x, y, hxy⟩ := (containsSeq_iff _ _).mp hc
          have hstrue : containsSeq sepDash s = true := by
            refine (containsSeq_iff _ _).mpr ⟨num ++ sepBracket ++ x, y, ?_⟩
            rw [hdecomp, hxy]
            simp [List.append_assoc]
          rw [h] at hstrue
          cases hstrue
        simp [parseCitation, hb,
          (splitOnce_eq_none_iff sepDash rest (by decide)).mpr hrest]
  · simp [handleTurn, hext]

/-- Witness for claim C5 at a concrete malformed citation. -/
theorem claim_c5_witness :
    parseCitation (String.toList ("No delimiter")) = none ∧
    handleTurn (⟨[], none⟩ : SessionState Nat) ("q")
        (Except.ok ⟨RunData.ofResponse ⟨"a", ["No delimiter"]⟩, ([] : List Nat)⟩) =
      ⟨([] : List ChatMessage) ++ [ChatMessage.user ("q"),
        ChatMessage.assistant (errorPrefixText ++ pyErrorText PyError.valueError) []],
       none⟩ :=
  claim_c5_malformed (String.toList ("No delimiter")) Nat ⟨[], none⟩ ("q")
    ⟨RunData.ofResponse ⟨"a", ["No delimiter"]⟩, ([] : List Nat)⟩ PyError.valueError
    (Or.inl (by decide)) rfl

/-! ## The source adapters (src/src/functions.py) -/

/-- Transport and parse failures of the external services: requests
exceptions, response.json() and ET.fromstring errors. -/
inductive SourceError
  | networkError
  | parseError
  deriving DecidableEq

/-- The request fetch_clinical_trails sends to
clinicaltrials.gov/api/v2/studies (src/src/functions.py lines 39-49). -/
structure TrialsQuery where
  queryTerm : String
  overallStatus : String
  sort : String
  pageSize : Nat
  deriving DecidableEq

/-- One study of the registry response; `ω` is the type of
primary-outcome entries (JSON objects that the code passes through
unchanged).  Fields the code reads with .get may be absent upstream. -/
structure TrialStudy (ω : Type) where
  hasResults : Bool
  nctId : Option String
  briefTitle : Option String
  briefSummary : Option String
  primaryOutcomes : List ω
  deriving DecidableEq

/-- One extracted dictionary of get_clinical_trails lines 89-96. -/
structure TrialEvidence (ω : Type) where
  title : Option String
  abstract : Option String
  url : String
  primary_outcomes : List ω
  deriving DecidableEq

/-- Python str() of an optional value inside an f-string: None renders
as the string "None". -/
def pyStr : Option String → String
  | none => "None"
  | some s => s

/-- Python l[-3:]: the last `n` elements of a list. -/
def lastN {α : Type} (n : Nat) (l : List α) : List α := l.drop (l.length - n)

/-- The query parameters of fetch_clinical_trails: the keyword, the
COMPLETED status filter, relevance sort, page size 20. -/
def trialsRequest (term : String) : TrialsQuery :=
  ⟨term, "COMPLETED", "@relevance", 20⟩

/-- fetch_clinical_trails: perform the HTTP request and parse the JSON
body; the network call and response.json() may fail. -/
def fetch_clinical_trails {ω : Type}
    (http : TrialsQuery → Except SourceError (List (TrialStudy ω)))
    (term : String) : Except SourceError (List (TrialStudy ω)) :=
  http (trialsRequest term)

/-- The per-study extraction of get_clinical_trails lines 71-96. -/
def extractStudy {ω : Type} (s : TrialStudy ω) : TrialEvidence ω :=
  { title := s.briefTitle
    abstract := s.briefSummary
    url := "https://clinicaltrials.gov/study/" ++ pyStr s.nctId
    primary_outcomes := lastN 3 s.primaryOutcomes }

/-- The study loop of get_clinical_trails lines 67-97: skip studies
without result data, extract the rest in order. -/
def trialsLoop {ω : Type} : List (TrialStudy ω) → List (TrialEvidence ω)
  | [] => []
  | s :: rest => if s.hasResults then extractStudy s :: trialsLoop rest else trialsLoop rest

/-- get_clinical_trails in src/src/functions.py lines 52-99: fetch,
skip studies lacking results, extract, truncate to five entries. -/
def get_clinical_trails {ω : Type}
    (http : TrialsQuery → Except SourceError (List (TrialStudy ω)))
    (term : String) : Except SourceError (List (TrialEvidence ω)) :=
  match fetch_clinical_trails http term with
  | Except.error e => Except.error e
  | Except.ok studies => Except.ok ((trialsLoop studies).take 5)

theorem trialsLoop_eq_filter_map {ω : Type} (l : List (TrialStudy ω)) :
    trialsLoop l = (l.filter (fun s => s.hasResults)).map extractStudy := by
  induction l with
  | nil => rfl
  | cons s rest ih =>
    by_cases h : s.hasResults
    · simp [trialsLoop, List.filter_cons, h, ih]
    · simp [trialsLoop, List.filter_cons, h, ih]

/-- One content element of a MedlinePlus result document. -/
structure MedlineContent where
  name : String
  text : String
  deriving DecidableEq

/-- One document element of the MedlinePlus XML response; the url
attribute may be absent (doc.get with default ""). -/
structure MedlineDoc where
  url : Option String
  contents : List MedlineContent
  deriving DecidableEq

/-- One health-topic dictionary returned by fetch_medline_plus. -/
structure MedlineTopic where
  title : String
  url : String
  summary : String
  deriving DecidableEq

/-- The query parameters of _fetch_medline_plus_raw lines 104-110. -/
structure MedlineQuery where
  db : String
  term : String
  retmax : String
  rettype : String
  deriving DecidableEq

/-- _fetch_medline_plus_raw in src/src/functions.py lines 102-113:
perform the HTTP request and parse the XML body; requests.get and
ET.fromstring may each fail, and neither failure is handled. -/
def _fetch_medline_plus_raw (http : MedlineQuery → Except SourceError String)
    (parseXml : String → Except SourceError (List MedlineDoc)) (term : String) :
    Except SourceError (List MedlineDoc) :=
  match http ⟨"healthTopics", term, "10", "brief"⟩ with
  | Except.error e => Except.error e
  | Except.ok body => parseXml body

/-- The per-document extraction of fetch_medline_plus lines 143-159:
start from an empty title and summary and the document's url attribute
(empty string when absent), then fill title and summary from the
content elements named title and FullSummary. -/
def medlineTopicOfDoc (cleanText : String → String) (doc : MedlineDoc) : MedlineTopic :=
  doc.contents.foldl
    (fun topic content =>
      if content.name = "title" then { topic with title := cleanText content.text }
      else if content.name = "FullSummary" then { topic with summary := cleanText content.text }
      else topic)
    ⟨"", (doc.url).getD "", ""⟩

/-- fetch_medline_plus in src/src/functions.py lines 130-161.
`cleanText` stands for _clean_text (markup stripping; its text output
is irrelevant to the claims). -/
def fetch_medline_plus (http : MedlineQuery → Except SourceError String)
    (parseXml : String → Except SourceError (List MedlineDoc))
    (cleanText : String → String) (term : String) :
    Except SourceError (List MedlineTopic) :=
  match _fetch_medline_plus_raw http parseXml term with
  | Except.error e => Except.error e
  | Except.ok docs => Except.ok ((docs.map (medlineTopicOfDoc cleanText)).take 5)

/-- The article record metapub returns for one PMID; optional fields
may be missing upstream. -/
structure PubmedRecord where
  title : Option String
  abstract : Option String
  authors : List String
  url : Option String
  deriving DecidableEq

/-- The dictionary fetch_articles builds per article (lines 28-33):
the abstract is always a string, defaulted to "". -/
structure ArticleData where
  title : Option String
  abstract : String
  authors : List String
  url : Option String
  deriving DecidableEq

/-- Modelled from the spec: the PubMed id query (the metapub library,
which is not part of src/) "retrieves up to N candidate identifiers" —
it returns at most retmax ids and may fail with a transport error. -/
def pmids_for_query (upstream : String → Except SourceError (List Nat)) (term : String)
    (retmax : Nat) : Except SourceError (List Nat) :=
  match upstream term with
  | Except.error e => Except.error e
  | Except.ok pmids => Except.ok (pmids.take retmax)

/-- The per-PMID loop of fetch_articles lines 26-34: fetch each
record, map a missing abstract to the empty string; a failing fetch
propagates and aborts the whole loop — there is no per-record
exception handling. -/
def articlesLoop (fetchRecord : Nat → Except SourceError PubmedRecord) :
    List Nat → Except SourceError (List ArticleData)
  | [] => Except.ok []
  | p :: rest =>
    match fetchRecord p with
    | Except.error e => Except.error e
    | Except.ok a =>
      match articlesLoop fetchRecord rest with
      | Except.error e => Except.error e
      | Except.ok ds => Except.ok (⟨a.title, (a.abstract).getD "", a.authors, a.url⟩ :: ds)

/-- fetch_articles in src/src/functions.py lines 8-36. -/
def fetch_articles (queryUpstream : String → Except SourceError (List Nat))
    (fetchRecord : Nat → Except SourceError PubmedRecord) (term : String) :
    Except SourceError (List ArticleData) :=
  match pmids_for_query queryUpstream term 5 with
  | Except.error e => Except.error e
  | Except.ok pmids => articlesLoop fetchRecord pmids

theorem articlesLoop_ok (f : Nat → Except SourceError PubmedRecord) :
    ∀ l ds, articlesLoop f l = Except.ok ds →
      ds.length = l.length ∧
      ∀ d ∈ ds, ∃ p a, p ∈ l ∧ f p = Except.ok a ∧
        d = ⟨a.title, (a.abstract).getD "", a.authors, a.url⟩ := by
  intro l
  induction l with
  | nil =>
    intro ds h
    have hds : ds = [] := by
      have h' : Except.ok ([] : List ArticleData) = Except.ok ds := h
      injection h' with h''
      exact h''.symm
    subst hds
    exact ⟨rfl, by intro d hd; cases hd⟩
  | cons p rest ih =>
    intro ds h
    cases hf : f p with
    | error e =>
      rw [show articlesLoop f (p :: rest) =
        match f p with
        | Except.error e => Except.error e
        | Except.ok a =>
          match articlesLoop f rest with
          | Except.error e => Except.error e
          | Except.ok ds => Except.ok (⟨a.title, (a.abstract).getD "", a.authors, a.url⟩ :: ds)
        from rfl, hf] at h
      cases h
    | ok a =>
      rw [show articlesLoop f (p :: rest) =
        match f p with
        | Except.error e => Except.error e
        | Except.ok a =>
          match articlesLoop f rest with
          | Except.error e => Except.error e
          | Except.ok ds => Except.ok (⟨a.title, (a.abstract).getD "", a.authors, a.url⟩ :: ds)
        from rfl, hf] at h
      cases hr : articlesLoop f rest with
      | error e =>
        rw [hr] at h
        cases h
      | ok ds' =>
        rw [hr] at h
        have hds : ds = ⟨a.title, (a.abstract).getD "", a.authors, a.url⟩ :: ds' := by
          injection h with h''
          exact h''.symm
        subst hds
        obtain ⟨hlen, hmem⟩ := ih ds' hr
        constructor
        · simp [hlen]
        · intro d hd
          rcases List.mem_cons.mp hd with rfl | hd'
          · exact ⟨p, a, List.mem_cons_self p rest, hf, rfl⟩
          · obtain ⟨q, b, hq, hb, hdb⟩ := hmem d hd'
            exact ⟨q, b, List.mem_cons_of_mem p hq, hb, hdb⟩

theorem articlesLoop_error (f : Nat → Except SourceError PubmedRecord) :
    ∀ l p er, p ∈ l → f p = Except.error er →
      ∃ er', articlesLoop f l = Except.error er' := by
  intro l
  induction l with
  | nil =>
    intro p er hp
    cases hp
  | cons q rest ih =>
    intro p er hp hf
    rcases List.mem_cons.mp hp with rfl | hp'
    · exact ⟨er, by simp [articlesLoop, hf]⟩
    · cases hq : f q with
      | error e2 => exact ⟨e2, by simp [articlesLoop, hq]⟩
      | ok a =>
        obtain ⟨er', hr⟩ := ih p er hp' hf
        exact ⟨er', by simp [articlesLoop, hq, hr]⟩

/-! ## The clinical-trials tool wiring (src/src/agent.py lines 65-70)

The tool search_clinical_trials calls fetch_clinical_trails — the raw
response.json() object — and never calls get_clinical_trails, so the
extraction pipeline above is dead code on the tool path.  Iterating a
Python dict yields its string keys, and Article(**key) on a string
raises TypeError. -/

/-- A Python dictionary with string keys and values of type `α`, as a
`for` loop sees it: iteration yields its keys in order. -/
structure PyDict (α : Type) where
  entries : List (String × α)
  deriving DecidableEq

/-- The pydantic Article model of src/src/agent.py lines 13-20; `ω`
is the type of the primary_outcomes entries (dicts in the source). -/
structure Article (ω : Type) where
  title : String
  abstract : String
  authors : Option (List String)
  url : String
  primary_outcomes : Option (List ω)
  deriving DecidableEq

/-- The failures the tool body can produce: an upstream
transport/parse failure, or the TypeError from Article(**key). -/
inductive ToolFailure
  | source (e : SourceError)
  | typeError
  deriving DecidableEq

/-- The list comprehension [Article(**article) for article in
articles] of src/src/agent.py line 70 when `articles` is the raw
response dictionary: iteration yields the dict's keys, and
keyword-unpacking a string — whatever its content — raises TypeError,
so the comprehension succeeds only on an empty dictionary. -/
def articlesComprehension {ω : Type} : List String → Except ToolFailure (List (Article ω))
  | [] => Except.ok []
  | _ :: _ => Except.error ToolFailure.typeError

/-- fetch_clinical_trails as the tool actually consumes it: the raw
parsed response.json() object (src/src/functions.py lines 39-49).
get_clinical_trails reads this object's "studies" entry — the typed
view modelled above — but the tool iterates the object directly. -/
def fetch_clinical_trails_raw {α : Type}
    (httpRaw : TrialsQuery → Except SourceError (PyDict α)) (term : String) :
    Except SourceError (PyDict α) :=
  httpRaw (trialsRequest term)

/-- search_clinical_trials in src/src/agent.py lines 65-70: it calls
fetch_clinical_trails (not get_clinical_trails) and builds
[Article(**article) for article in articles] over the raw response
dictionary. -/
def search_clinical_trials {α ω : Type}
    (httpRaw : TrialsQuery → Except SourceError (PyDict α)) (keyword : String) :
    Except ToolFailure (List (Article ω)) :=
  match fetch_clinical_trails_raw httpRaw keyword with
  | Except.error e => Except.error (ToolFailure.source e)
  | Except.ok page => articlesComprehension (page.entries.map Prod.fst)

/-- Claim C8 (code-bug evidence): the tool path does query the
registry restricted to completed studies sorted by relevance, but the
rest of the claimed pipeline never runs: search_clinical_trials calls
fetch_clinical_trails — the raw response dictionary — instead of
get_clinical_trails, so iterating it yields string keys, Article(**key)
raises TypeError on every non-empty response, and the only non-raising
outcome is an empty evidence list.  The claimed discarding /
last-three-outcomes / url-synthesis behaviour is implemented in
get_clinical_trails (last conjunct), which src/src/agent.py never
imports or calls. -/
theorem claim_c8_tool_wiring (α ω : Type)
    (httpRaw : TrialsQuery → Except SourceError (PyDict α)) (keyword : String) :
    (trialsRequest keyword).overallStatus = "COMPLETED" ∧
    (trialsRequest keyword).sort = "@relevance" ∧
    (∀ page, httpRaw (trialsRequest keyword) = Except.ok page → page.entries ≠ [] →
      @search_clinical_trials α ω httpRaw keyword = Except.error ToolFailure.typeError) ∧
    (∀ l, @search_clinical_trials α ω httpRaw keyword = Except.ok l → l = []) ∧
    (∀ s : TrialStudy ω, s.hasResults = true →
      get_clinical_trails (fun _ => Except.ok [s]) keyword = Except.ok [extractStudy s]) := by
  have hstep : ∀ page, httpRaw (trialsRequest keyword) = Except.ok page →
      @search_clinical_trials α ω httpRaw keyword =
        @articlesComprehension ω (page.entries.map Prod.fst) := by
    intro page hok
    rw [show @search_clinical_trials α ω httpRaw keyword =
        (match fetch_clinical_trails_raw httpRaw keyword with
        | Except.error e => Except.error (ToolFailure.source e)
        | Except.ok pg => articlesComprehension (pg.entries.map Prod.fst)) from rfl,
      show fetch_clinical_trails_raw httpRaw keyword = Except.ok page from hok]
  refine ⟨rfl, rfl, ?_, ?_, ?_⟩
  · intro page hok hne
    rw [hstep page hok]
    cases hent : page.entries with
    | nil => exact absurd hent hne
    | cons p ps => rfl
  · intro l hok
    cases hraw : httpRaw (trialsRequest keyword) with
    | error e =>
      rw [show @search_clinical_trials α ω httpRaw keyword =
          (match fetch_clinical_trails_raw httpRaw keyword with
          | Except.error e => Except.error (ToolFailure.source e)
          | Except.ok pg => articlesComprehension (pg.entries.map Prod.fst)) from rfl,
        show fetch_clinical_trails_raw httpRaw keyword = Except.error e from hraw] at hok
      cases hok
    | ok page =>
      rw [hstep page hraw] at hok
      cases hent : page.entries with
      | nil =>
        rw [hent] at hok
        have h : Except.ok ([] : List (Article ω)) = Except.ok l := hok
        injection h with h2
        exact h2.symm
      | cons p ps =>
        rw [hent] at hok
        have h : Except.error ToolFailure.typeError = Except.ok l := hok
        cases h
  · intro s hs
    simp [get_clinical_trails, fetch_clinical_trails, trialsLoop, hs]

/-- Concrete registry stub used by witnesses: one completed study with
results and four primary outcomes. -/
def trialsHttpW : TrialsQuery → Except SourceError (List (TrialStudy Nat)) :=
  fun _ => Except.ok [⟨true, some ("NCT01"), some ("T"), some ("S"), [1, 2, 3, 4]⟩]

/-- A concrete raw registry response object with the usual top-level
keys, as the tool sees it. -/
def trialsRawHttpW : TrialsQuery → Except SourceError (PyDict Nat) :=
  fun _ => Except.ok ⟨[("studies", 0), ("nextPageToken", 1)]⟩

/-- Witness for claim C8: on a concrete non-empty response object the
tool raises TypeError instead of returning evidence. -/
theorem claim_c8_witness :
    @search_clinical_trials Nat Nat trialsRawHttpW ("diabetes") =
      Except.error ToolFailure.typeError :=
  (claim_c8_tool_wiring Nat Nat trialsRawHttpW ("diabetes")).2.2.1
    ⟨[("studies", 0), ("nextPageToken", 1)]⟩ rfl (by decide)

/-- Claim C2 counterexample: a MedlinePlus document with no url
attribute and no title content element yields an adapter record whose
title and url are both empty strings — the adapter appends it
unconditionally. -/
theorem claim_c2_counterexample :
    fetch_medline_plus (fun _ => Except.ok ("<xml>"))
        (fun _ => Except.ok [⟨none, []⟩]) id ("x") =
      Except.ok [{ title := "", url := "", summary := "" }] ∧
    ¬ (∀ topics, fetch_medline_plus (fun _ => Except.ok ("<xml>"))
        (fun _ => Except.ok [⟨none, []⟩]) id ("x") = Except.ok topics →
        ∀ t ∈ topics, t.title ≠ "" ∧ t.url ≠ "") := by
  refine ⟨rfl, ?_⟩
  intro hall
  have h := hall [{ title := "", url := "", summary := "" }] rfl
    { title := "", url := "", summary := "" } (by simp)
  exact h.1 rfl

/-- Claim C2 (amended): only the clinical-trials adapter guarantees
non-empty urls — each is synthesized from a constant prefix and the
(possibly absent) NCT id; the literature and health-topics adapters
pass upstream fields through, and the health-topics adapter emits
empty title and url when the upstream document lacks them. -/
theorem claim_c2_trials_url (ω : Type)
    (http : TrialsQuery → Except SourceError (List (TrialStudy ω))) (term : String)
    (out : List (TrialEvidence ω)) (evid : TrialEvidence ω)
    (hok : get_clinical_trails http term = Except.ok out) (hmem : evid ∈ out) :
    evid.url ≠ "" := by
  cases hfetch : http (trialsRequest term) with
  | error e =>
    rw [show get_clinical_trails http term = Except.error e by
      simp [get_clinical_trails, fetch_clinical_trails, hfetch]] at hok
    cases hok
  | ok studies =>
    rw [show get_clinical_trails http term = Except.ok ((trialsLoop studies).take 5) by
      simp [get_clinical_trails, fetch_clinical_trails, hfetch]] at hok
    have houteq : out = (trialsLoop studies).take 5 := by
      injection hok with h
      exact h.symm
    subst houteq
    have hmem2 := List.mem_of_mem_take hmem
    rw [trialsLoop_eq_filter_map] at hmem2
    obtain ⟨s, _, hse⟩ := List.mem_map.mp hmem2
    rw [← hse]
    show ("https://clinicaltrials.gov/study/" ++ pyStr s.nctId) ≠ ""
    intro hurl
    have hlen := congrArg String.length hurl
    rw [String.length_append] at hlen
    have hpre : ("https://clinicaltrials.gov/study/" : String).length = 33 := by decide
    have hzero : ("" : String).length = 0 := rfl
    omega

/-- Witness for claim C2's amended url guarantee at a concrete study. -/
theorem claim_c2_witness :
    (extractStudy
      (⟨true, some ("NCT01"), some ("T"), some ("S"), [1, 2, 3, 4]⟩ : TrialStudy Nat)).url ≠ "" :=
  claim_c2_trials_url Nat trialsHttpW ("k")
    [extractStudy ⟨true, some ("NCT01"), some ("T"), some ("S"), [1, 2, 3, 4]⟩]
    (extractStudy ⟨true, some ("NCT01"), some ("T"), some ("S"), [1, 2, 3, 4]⟩)
    rfl (by simp)

/-- Claim C6 counterexample: a network failure in the clinical-trials
adapter propagates as an error to the caller; it is not converted into
an empty-evidence result. -/
theorem claim_c6_counterexample :
    @get_clinical_trails Nat (fun _ => Except.error SourceError.networkError) ("d") =
      Except.error SourceError.networkError ∧
    (Except.error SourceError.networkError :
        Except SourceError (List (TrialEvidence Nat))) ≠ Except.ok [] := by
  refine ⟨rfl, ?_⟩
  intro h
  cases h

/-- Claim C6 (amended): a transport or parse failure in any of the
three adapters propagates as an exception out of the adapter (and so
out of the tool function, aborting the run) rather than being
converted into a SourceUnavailable / empty-evidence tool result;
src/app.py's exception handler then surfaces it to the transcript as
an error message. -/
theorem claim_c6_failure_propagates (ω : Type) (term : String) (e : SourceError)
    (parseXml : String → Except SourceError (List MedlineDoc))
    (cleanText : String → String)
    (fetchRecord : Nat → Except SourceError PubmedRecord)
    (μ : Type) (st : SessionState μ) (prompt : String) (emsg : String) :
    @get_clinical_trails ω (fun _ => Except.error e) term = Except.error e ∧
    fetch_medline_plus (fun _ => Except.error e) parseXml cleanText term = Except.error e ∧
    fetch_articles (fun _ => Except.error e) fetchRecord term = Except.error e ∧
    (∀ l, (Except.error e : Except SourceError (List (TrialEvidence ω))) ≠ Except.ok l) ∧
    handleTurn st prompt (Except.error emsg) =
      ⟨st.messages ++ [ChatMessage.user prompt,
        ChatMessage.assistant (errorPrefixText ++ emsg) []],
       st.message_history⟩ := by
  refine ⟨rfl, rfl, rfl, ?_, ?_⟩
  · intro l h
    cases h
  · simp [handleTurn]

/-- Claim C9 counterexample: with two candidate identifiers of which
the second fails to fetch, the whole literature search fails — the
failing record is not skipped, and the successfully fetched first
record is lost. -/
theorem claim_c9_counterexample :
    fetch_articles (fun _ => Except.ok [1, 2])
        (fun p => if p = 1 then Except.ok ⟨some ("T"), none, [], some ("u")⟩
          else Except.error SourceError.networkError) ("k") =
      Except.error SourceError.networkError ∧
    ¬ ∃ l, fetch_articles (fun _ => Except.ok [1, 2])
        (fun p => if p = 1 then Except.ok ⟨some ("T"), none, [], some ("u")⟩
          else Except.error SourceError.networkError) ("k") = Except.ok l := by
  constructor
  · rfl
  · rintro ⟨l, hl⟩
    rw [show fetch_articles (fun _ => Except.ok [1, 2])
        (fun p => if p = 1 then Except.ok ⟨some ("T"), none, [], some ("u")⟩
          else Except.error SourceError.networkError) ("k") =
        Except.error SourceError.networkError from rfl] at hl
    cases hl

/-- Claim C9 (amended): the literature adapter returns at most five
records and maps a missing abstract to the empty string (never None);
but it does not skip incomplete records: a failure fetching any single
selected record propagates and fails the whole call. -/
theorem claim_c9_articles (queryUpstream : String → Except SourceError (List Nat))
    (fetchRecord : Nat → Except SourceError PubmedRecord) (term : String) :
    (∀ l, fetch_articles queryUpstream fetchRecord term = Except.ok l →
      l.length ≤ 5 ∧
      ∀ d ∈ l, ∃ a, d.abstract = (a.abstract).getD "" ∧
        ∃ p, fetchRecord p = Except.ok a ∧
          d = ⟨a.title, (a.abstract).getD "", a.authors, a.url⟩) ∧
    (∀ pmids p er, queryUpstream term = Except.ok pmids → p ∈ pmids.take 5 →
      fetchRecord p = Except.error er →
      ∃ er', fetch_articles queryUpstream fetchRecord term = Except.error er') := by
  constructor
  · intro l hok
    cases hq : queryUpstream term with
    | error e =>
      rw [show fetch_articles queryUpstream fetchRecord term = Except.error e by
        simp [fetch_articles, pmids_for_query, hq]] at hok
      cases hok
    | ok pmids =>
      rw [show fetch_articles queryUpstream fetchRecord term =
          articlesLoop fetchRecord (pmids.take 5) by
        simp [fetch_articles, pmids_for_query, hq]] at hok
      obtain ⟨hlen, hmem⟩ := articlesLoop_ok fetchRecord (pmids.take 5) l hok
      constructor
      · rw [hlen, List.length_take]
        omega
      · intro d hd
        obtain ⟨p, a, _, hfa, hda⟩ := hmem d hd
        exact ⟨a, by rw [hda], p, hfa, hda⟩
  · intro pmids p er hq hp hf
    obtain ⟨er', hloop⟩ := articlesLoop_error fetchRecord (pmids.take 5) p er hp hf
    refine ⟨er', ?_⟩
    rw [show fetch_articles queryUpstream fetchRecord term =
        articlesLoop fetchRecord (pmids.take 5) by
      simp [fetch_articles, pmids_for_query, hq]]
    exact hloop

/-- Concrete upstream stubs used by the claim C9 witness. -/
def pubmedQueryW : String → Except SourceError (List Nat) := fun _ => Except.ok [1]

def pubmedFetchW : Nat → Except SourceError PubmedRecord :=
  fun _ => Except.ok ⟨some ("T"), none, [], some ("u")⟩

/-- Witness for claim C9 at a concrete one-article search: the
returned record's abstract is the empty-string default. -/
theorem claim_c9_witness :
    ∃ a, (⟨some ("T"), "", [], some ("u")⟩ : ArticleData).abstract = (a.abstract).getD "" ∧
      ∃ p, pubmedFetchW p = Except.ok a ∧
        (⟨some ("T"), "", [], some ("u")⟩ : ArticleData) =
          ⟨a.title, (a.abstract).getD "", a.authors, a.url⟩ :=
  ((claim_c9_articles pubmedQueryW pubmedFetchW ("k")).1
      [⟨some ("T"), "", [], some ("u")⟩] rfl).2
    ⟨some ("T"), "", [], some ("u")⟩ (by simp)

/-! ## The orchestrator round budget (spec-modelled)

The round-limit loop itself lives in the pydantic-ai dependency, not
under src/; only its configuration (UsageLimits(request_limit=10) in
src/app.py) is repository code.  The loop is therefore modelled from
the specification's section 4.3. -/

/-- UsageLimits as constructed in src/app.py line 49. -/
structure UsageLimits where
  request_limit : Nat
  deriving DecidableEq

/-- The usage limits get_response passes to search_agent.run:
UsageLimits(request_limit=10). -/
def get_response_usage_limits : UsageLimits := ⟨10⟩

/-- One decision of the language model at a round: request a tool call
or emit a final structured answer. -/
inductive ModelDecision
  | callTool (name : String) (keyword : String)
  | finalAnswer (resp : SearchResponse)

inductive OrchestratorError
  | budgetExceeded
  deriving DecidableEq

/-- Modelled from the spec: the orchestrator control loop of section
4.3 (enforced by the pydantic-ai dependency, which is not code under
src/): each model round consumes budget; a further round attempted
with the budget exhausted terminates the call with BudgetExceeded. -/
def orchestrate (policy : Nat → ModelDecision) :
    Nat → Nat → Except OrchestratorError SearchResponse
  | _, 0 => Except.error OrchestratorError.budgetExceeded
  | round, fuel + 1 =>
    match policy round with
    | ModelDecision.finalAnswer r => Except.ok r
    | ModelDecision.callTool _ _ => orchestrate policy (round + 1) fuel

/-- Modelled from the spec: the caller-facing answer operation running
the loop under the round budget of UsageLimits. -/
def answerCall (policy : Nat → ModelDecision) (limits : UsageLimits) :
    Except OrchestratorError SearchResponse :=
  orchestrate policy 0 limits.request_limit

/-- The number of model rounds a run of the loop performs. -/
def usedRounds (policy : Nat → ModelDecision) : Nat → Nat → Nat
  | _, 0 => 0
  | round, fuel + 1 =>
    match policy round with
    | ModelDecision.finalAnswer _ => 1
    | ModelDecision.callTool _ _ => 1 + usedRounds policy (round + 1) fuel

theorem usedRounds_le (policy : Nat → ModelDecision) :
    ∀ fuel round, usedRounds policy round fuel ≤ fuel := by
  intro fuel
  induction fuel with
  | zero =>
    intro round
    exact Nat.le_refl 0
  | succ f ih =>
    intro round
    rw [show usedRounds policy round (f + 1) =
      match policy round with
      | ModelDecision.finalAnswer _ => 1
      | ModelDecision.callTool _ _ => 1 + usedRounds policy (round + 1) f from rfl]
    cases policy round with
    | finalAnswer r =>
      change 1 ≤ f + 1
      omega
    | callTool n kw =>
      change 1 + usedRounds policy (round + 1) f ≤ f + 1
      have := ih (round + 1)
      omega

theorem orchestrate_all_tools (policy : Nat → ModelDecision)
    (h : ∀ k, ∃ name keyword, policy k = ModelDecision.callTool name keyword) :
    ∀ fuel round, orchestrate policy round fuel =
      Except.error OrchestratorError.budgetExceeded := by
  intro fuel
  induction fuel with
  | zero =>
    intro round
    rfl
  | succ f ih =>
    intro round
    obtain ⟨name, keyword, hk⟩ := h round
    rw [show orchestrate policy round (f + 1) =
      match policy round with
      | ModelDecision.finalAnswer r => Except.ok r
      | ModelDecision.callTool _ _ => orchestrate policy (round + 1) f from rfl, hk]
    exact ih (round + 1)

theorem orchestrate_ok_policy (policy : Nat → ModelDecision) :
    ∀ fuel round r, orchestrate policy round fuel = Except.ok r →
      ∃ k, policy k = ModelDecision.finalAnswer r := by
  intro fuel
  induction fuel with
  | zero =>
    intro round r h
    cases h
  | succ f ih =>
    intro round r h
    rw [show orchestrate policy round (f + 1) =
      match policy round with
      | ModelDecision.finalAnswer r => Except.ok r
      | ModelDecision.callTool _ _ => orchestrate policy (round + 1) f from rfl] at h
    cases hp : policy round with
    | finalAnswer r2 =>
      rw [hp] at h
      have hr : r2 = r := by
        injection h
      exact ⟨round, by rw [hp, hr]⟩
    | callTool name keyword =>
      rw [hp] at h
      exact ih (round + 1) r h

/-- Claim C7 (spec-modelled): per answer() call the orchestrator
performs at most request_limit model/tool rounds; a model that keeps
requesting tools deterministically ends the call with BudgetExceeded
surfaced as an error; any returned answer is one the model actually
produced (nothing is silently truncated); and src/app.py configures
the run with request_limit = 10. -/
theorem claim_c7_budget (policy : Nat → ModelDecision) (limits : UsageLimits) :
    usedRounds policy 0 limits.request_limit ≤ limits.request_limit ∧
    ((∀ k, ∃ name keyword, policy k = ModelDecision.callTool name keyword) →
      answerCall policy limits = Except.error OrchestratorError.budgetExceeded) ∧
    (∀ r, answerCall policy limits = Except.ok r →
      ∃ k, policy k = ModelDecision.finalAnswer r) ∧
    get_response_usage_limits.request_limit = 10 := by
  refine ⟨usedRounds_le policy limits.request_limit 0, ?_, ?_, rfl⟩
  · intro h
    exact orchestrate_all_tools policy h limits.request_limit 0
  · intro r h
    exact orchestrate_ok_policy policy limits.request_limit 0 r h

/-- The model policy used by the claim C7 witness: always request a
tool. -/
def allToolsPolicy : Nat → ModelDecision :=
  fun _ => ModelDecision.callTool ("search_pubmed") ("k")

/-- Witness for claim C7: under the app's limit of 10 rounds, a model
that keeps requesting tools ends with BudgetExceeded. -/
theorem claim_c7_witness :
    answerCall allToolsPolicy get_response_usage_limits =
      Except.error OrchestratorError.budgetExceeded :=
  (claim_c7_budget allToolsPolicy get_response_usage_limits).2.1
    (fun _ => ⟨"search_pubmed", "k", rfl⟩)

end MediAgent
